import Mathlib

/-!
Verification of the JsonFilter filter-pipeline engine (`src/script.ts`).

The source file contains two concatenated variants of the application:
a multi-source variant (several `sources` with a `content` list) and a
single-source variant (one optional `content` value).  Both are embedded
below: shared value/codec definitions first, then namespace `Multi` for
the first variant and namespace `Single` for the second.
-/

set_option linter.unusedVariables false

namespace JsonFilter

/-- A JavaScript runtime value as manipulated by `script.ts`: JSON data
(null, booleans, numbers, strings, arrays, objects) plus `undefined`,
which arises from indexing with an absent key.  Numbers are modelled as
integers, which covers every number the app itself produces (array
indices, lengths); objects are own-property field lists as produced by
`JSON.parse` (prototype-inherited properties are not modelled). -/
inductive JSValue where
  | undefined : JSValue
  | null : JSValue
  | bool (b : Bool) : JSValue
  | num (n : Int) : JSValue
  | str (s : String) : JSValue
  | arr (elems : List JSValue) : JSValue
  | obj (fields : List (String × JSValue)) : JSValue
  deriving Repr

mutual

/-- Decidable equality for `JSValue` (written out by hand because the
automatic derivation does not handle the nested `List` occurrences). -/
def JSValue.decEq : (a b : JSValue) → Decidable (a = b)
  | .undefined, .undefined => isTrue rfl
  | .null, .null => isTrue rfl
  | .bool a, .bool b =>
    if h : a = b then isTrue (by rw [h]) else isFalse (fun he => h (JSValue.bool.inj he))
  | .num a, .num b =>
    if h : a = b then isTrue (by rw [h]) else isFalse (fun he => h (JSValue.num.inj he))
  | .str a, .str b =>
    if h : a = b then isTrue (by rw [h]) else isFalse (fun he => h (JSValue.str.inj he))
  | .arr xs, .arr ys =>
    match decEqArr xs ys with
    | isTrue h => isTrue (by rw [h])
    | isFalse h => isFalse (fun he => h (JSValue.arr.inj he))
  | .obj fs, .obj gs =>
    match decEqObj fs gs with
    | isTrue h => isTrue (by rw [h])
    | isFalse h => isFalse (fun he => h (JSValue.obj.inj he))
  | .undefined, .null => isFalse (fun h => JSValue.noConfusion h)
  | .undefined, .bool _ => isFalse (fun h => JSValue.noConfusion h)
  | .undefined, .num _ => isFalse (fun h => JSValue.noConfusion h)
  | .undefined, .str _ => isFalse (fun h => JSValue.noConfusion h)
  | .undefined, .arr _ => isFalse (fun h => JSValue.noConfusion h)
  | .undefined, .obj _ => isFalse (fun h => JSValue.noConfusion h)
  | .null, .undefined => isFalse (fun h => JSValue.noConfusion h)
  | .null, .bool _ => isFalse (fun h => JSValue.noConfusion h)
  | .null, .num _ => isFalse (fun h => JSValue.noConfusion h)
  | .null, .str _ => isFalse (fun h => JSValue.noConfusion h)
  | .null, .arr _ => isFalse (fun h => JSValue.noConfusion h)
  | .null, .obj _ => isFalse (fun h => JSValue.noConfusion h)
  | .bool _, .undefined => isFalse (fun h => JSValue.noConfusion h)
  | .bool _, .null => isFalse (fun h => JSValue.noConfusion h)
  | .bool _, .num _ => isFalse (fun h => JSValue.noConfusion h)
  | .bool _, .str _ => isFalse (fun h => JSValue.noConfusion h)
  | .bool _, .arr _ => isFalse (fun h => JSValue.noConfusion h)
  | .bool _, .obj _ => isFalse (fun h => JSValue.noConfusion h)
  | .num _, .undefined => isFalse (fun h => JSValue.noConfusion h)
  | .num _, .null => isFalse (fun h => JSValue.noConfusion h)
  | .num _, .bool _ => isFalse (fun h => JSValue.noConfusion h)
  | .num _, .str _ => isFalse (fun h => JSValue.noConfusion h)
  | .num _, .arr _ => isFalse (fun h => JSValue.noConfusion h)
  | .num _, .obj _ => isFalse (fun h => JSValue.noConfusion h)
  | .str _, .undefined => isFalse (fun h => JSValue.noConfusion h)
  | .str _, .null => isFalse (fun h => JSValue.noConfusion h)
  | .str _, .bool _ => isFalse (fun h => JSValue.noConfusion h)
  | .str _, .num _ => isFalse (fun h => JSValue.noConfusion h)
  | .str _, .arr _ => isFalse (fun h => JSValue.noConfusion h)
  | .str _, .obj _ => isFalse (fun h => JSValue.noConfusion h)
  | .arr _, .undefined => isFalse (fun h => JSValue.noConfusion h)
  | .arr _, .null => isFalse (fun h => JSValue.noConfusion h)
  | .arr _, .bool _ => isFalse (fun h => JSValue.noConfusion h)
  | .arr _, .num _ => isFalse (fun h => JSValue.noConfusion h)
  | .arr _, .str _ => isFalse (fun h => JSValue.noConfusion h)
  | .arr _, .obj _ => isFalse (fun h => JSValue.noConfusion h)
  | .obj _, .undefined => isFalse (fun h => JSValue.noConfusion h)
  | .obj _, .null => isFalse (fun h => JSValue.noConfusion h)
  | .obj _, .bool _ => isFalse (fun h => JSValue.noConfusion h)
  | .obj _, .num _ => isFalse (fun h => JSValue.noConfusion h)
  | .obj _, .str _ => isFalse (fun h => JSValue.noConfusion h)
  | .obj _, .arr _ => isFalse (fun h => JSValue.noConfusion h)

def decEqArr : (xs ys : List JSValue) → Decidable (xs = ys)
  | [], [] => isTrue rfl
  | [], _ :: _ => isFalse (fun h => List.noConfusion h)
  | _ :: _, [] => isFalse (fun h => List.noConfusion h)
  | a :: as, b :: bs =>
    match JSValue.decEq a b, decEqArr as bs with
    | isTrue h1, isTrue h2 => isTrue (by rw [h1, h2])
    | isFalse h1, _ => isFalse (fun h => h1 (List.cons.inj h).1)
    | _, isFalse h2 => isFalse (fun h => h2 (List.cons.inj h).2)

def decEqObj : (fs gs : List (String × JSValue)) → Decidable (fs = gs)
  | [], [] => isTrue rfl
  | [], _ :: _ => isFalse (fun h => List.noConfusion h)
  | _ :: _, [] => isFalse (fun h => List.noConfusion h)
  | (k, v) :: fs, (k2, v2) :: gs =>
    if hk : k = k2 then
      match JSValue.decEq v v2, decEqObj fs gs with
      | isTrue h1, isTrue h2 => isTrue (by rw [hk, h1, h2])
      | isFalse h1, _ => isFalse (fun h => h1 (Prod.mk.inj (List.cons.inj h).1).2)
      | _, isFalse h2 => isFalse (fun h => h2 (List.cons.inj h).2)
    else isFalse (fun h => hk (Prod.mk.inj (List.cons.inj h).1).1)

end

instance : DecidableEq JSValue := JSValue.decEq

/-- JavaScript truthiness, as tested by `if (!data) ...`: `undefined`,
`null`, `false`, `0` and the empty string are falsy; every object and
array is truthy. -/
def truthy : JSValue → Bool
  | .undefined => false
  | .null => false
  | .bool b => b
  | .num n => n != 0
  | .str s => s != ""
  | .arr _ => true
  | .obj _ => true

/-- The JavaScript `typeof` operator on the values above.  Note that
`typeof null` is `"object"` and arrays are `"object"` as well. -/
def jsTypeof : JSValue → String
  | .undefined => "undefined"
  | .null => "object"
  | .bool _ => "boolean"
  | .num _ => "number"
  | .str _ => "string"
  | .arr _ => "object"
  | .obj _ => "object"

/-- The JavaScript `Array.isArray` test. -/
def isArrayVal : JSValue → Bool
  | .arr _ => true
  | _ => false

/- ### String helpers mirroring the JavaScript string operations used by
the codec (`indexOf`, `lastIndexOf`, `slice`, `trim`). -/

/-- The character `{` (written via its code point). -/
def openBrace : Char := Char.ofNat 123

/-- The character `}` (written via its code point). -/
def closeBrace : Char := Char.ofNat 125

/-- The single-quote character. -/
def quoteChar : Char := Char.ofNat 39

def isWsChar (c : Char) : Bool :=
  c == ' ' || c == '\n' || c == '\t' || c == '\r'

def charListIndexOf : List Char → Char → Option Nat
  | [], _ => none
  | c :: cs, t => if c == t then some 0 else (charListIndexOf cs t).map (· + 1)

/-- JS `text.indexOf(c)` for a one-character needle: first index, `-1` when absent. -/
def jsIndexOfChar (s : String) (c : Char) : Int :=
  match charListIndexOf s.data c with
  | some n => (n : Int)
  | none => -1

/-- JS `text.lastIndexOf(c)` for a one-character needle: last index, `-1` when absent. -/
def jsLastIndexOfChar (s : String) (c : Char) : Int :=
  match charListIndexOf s.data.reverse c with
  | some n => (s.data.length : Int) - 1 - (n : Int)
  | none => -1

/-- Clamp a JavaScript `slice` index: a negative index counts from the
end (floored at `0`), and indices beyond the length are clamped to it. -/
def clampIndex (len : Nat) (i : Int) : Nat :=
  if i < 0 then ((len : Int) + i).toNat else min i.toNat len

/-- JS `text.slice(a, b)` with JavaScript clamping semantics. -/
def jsSliceStr (s : String) (a b : Int) : String :=
  let cs := s.data
  String.mk ((cs.take (clampIndex cs.length b)).drop (clampIndex cs.length a))

/-- JS `text.trim()` (the app only ever trims ASCII whitespace). -/
def trimString (s : String) : String :=
  String.mk (((s.data.dropWhile isWsChar).reverse.dropWhile isWsChar).reverse)

/-- Decimal digits of a natural number (the fuel bound `n + 1` always suffices). -/
def natToDigits : Nat → Nat → List Char
  | 0, _ => []
  | fuel + 1, n =>
    if n < 10 then [Char.ofNat (48 + n)]
    else natToDigits fuel (n / 10) ++ [Char.ofNat (48 + n % 10)]

def natToDecString (n : Nat) : String :=
  String.mk (natToDigits (n + 1) n)

/-- JavaScript's decimal rendering of an integer number. -/
def intToDecString (i : Int) : String :=
  if i < 0 then "-" ++ natToDecString i.natAbs else natToDecString i.toNat

/- ### Step Function Codec
`script.ts` keeps each step's `func` as a live function and round-trips
it through text: `getFunctionContent` slices the body out of
`func.toString()`, and `desterilizeFunction` rebuilds a function with
`new Function(["e","idx","list"], body)`.  A function value is embedded
as its parameter-name list plus its body text. -/

/-- A JavaScript function value as the app observes it: the parameter
names and the source text of the body.  (`new Function` produces exactly
such a function; calling it is modelled by `callJS` below.) -/
structure JSFunctionVal where
  params : List String
  body : String
  deriving DecidableEq, Repr

def joinComma : List String → String
  | [] => ""
  | [p] => p
  | p :: ps => p ++ "," ++ joinComma ps

/-- The rendering `func.toString()` for a function built by `new Function(params, body)`:
the JS engine renders it as
`function anonymous(<params>\n) {\n<body>\n}`. -/
def funcToString (f : JSFunctionVal) : String :=
  "function anonymous(" ++ joinComma f.params ++ "\n) " ++
    String.mk [openBrace] ++ "\n" ++ f.body ++ "\n" ++ String.mk [closeBrace]

/-- The helper `getFunctionContent(func)` from `script.ts`:
`text.slice(text.indexOf("{") + 1, text.lastIndexOf("}")).trim()`
applied to `func.toString()`. -/
def getFunctionContent (func : JSFunctionVal) : String :=
  let text := funcToString func
  trimString (jsSliceStr text (jsIndexOfChar text openBrace + 1)
    (jsLastIndexOfChar text closeBrace))

/-- The function built by `desterilizeFunction` for a string-valued
`func` key: `new Function(["e", "idx", "list"], value)`.  The array
argument is coerced by `new Function` to the string `"e,idx,list"` and
parsed as the parameter list, so the resulting callable has the three
parameters `e`, `idx`, `list`. -/
def desterilizeFuncValue (body : String) : JSFunctionVal :=
  ⟨["e", "idx", "list"], body⟩

/-- Follows the spec's words (§4.1) for `decode(bodyText)`: a callable
"accepting exactly three positional parameters named `element`, `index`,
`list`" whose body is the given text.  Kept separate from
`desterilizeFuncValue` (the definition translated from the source) so the
two can be compared. -/
def specDecode (body : String) : JSFunctionVal :=
  ⟨["element", "index", "list"], body⟩

/- ### A small evaluator for step bodies
The app's step functions are arbitrary JavaScript compiled by the JS
engine; the pipeline only ever *calls* them.  The fragment actually
exercised by the app and this development is `return <expr>;` where
`<expr>` is a string/number literal, an identifier, or a member chain
(e.g. `return e;`, `return e.x;`, `return 'a';`, `return 0;`).  `callJS`
models the engine's compile-and-call for that fragment; a body outside
the fragment evaluates to `undefined` here.  An unbound identifier also
evaluates to `undefined` (the real engine throws a `ReferenceError`;
either way such a call never produces the value a bound identifier
would). -/

inductive JSExpr where
  | lit (v : JSValue)
  | var (name : String)
  | member (base : JSExpr) (field : String)
  deriving DecidableEq, Repr

def isIdentStart (c : Char) : Bool := c.isAlpha || c == '_' || c == '$'

def isIdentCont (c : Char) : Bool := c.isAlphanum || c == '_' || c == '$'

def skipWs : List Char → List Char
  | [] => []
  | c :: cs => if isWsChar c then skipWs cs else c :: cs

/-- Split off the longest prefix of characters satisfying `p`. -/
def takeWhileSplit (p : Char → Bool) : List Char → List Char × List Char
  | [] => ([], [])
  | c :: cs =>
    if p c then
      let r := takeWhileSplit p cs
      (c :: r.1, r.2)
    else ([], c :: cs)

def digitsToNat (ds : List Char) : Nat :=
  ds.foldl (fun acc c => acc * 10 + (c.toNat - 48)) 0

def parsePrimary (cs : List Char) : Option (JSExpr × List Char) :=
  match cs with
  | [] => none
  | c :: rest =>
    if c == quoteChar then
      let r := takeWhileSplit (fun ch => ch != quoteChar) rest
      match r.2 with
      | _ :: r2 => some (.lit (.str (String.mk r.1)), r2)
      | [] => none
    else if c.isDigit then
      let r := takeWhileSplit Char.isDigit (c :: rest)
      some (.lit (.num (digitsToNat r.1 : Nat)), r.2)
    else if isIdentStart c then
      let r := takeWhileSplit isIdentCont (c :: rest)
      some (.var (String.mk r.1), r.2)
    else none

/-- Parse a chain of `.field` accesses after a primary expression
(fuel-driven over the remaining input length). -/
def parseMemberChain : Nat → JSExpr → List Char → JSExpr × List Char
  | 0, e, cs => (e, cs)
  | fuel + 1, e, cs =>
    match cs with
    | c :: rest =>
      if c == '.' then
        match rest with
        | c2 :: _ =>
          if isIdentStart c2 then
            let r := takeWhileSplit isIdentCont rest
            parseMemberChain fuel (.member e (String.mk r.1)) r.2
          else (e, cs)
        | [] => (e, cs)
      else (e, cs)
    | [] => (e, cs)

def stripExact : List Char → List Char → Option (List Char)
  | [], cs => some cs
  | _ :: _, [] => none
  | k :: ks, c :: cs => if k == c then stripExact ks cs else none

/-- Accept optional whitespace, an optional `;`, optional whitespace,
then end of input. -/
def finishBody (cs : List Char) (e : JSExpr) : Option JSExpr :=
  let cs1 := skipWs cs
  let cs2 :=
    match cs1 with
    | c :: r => if c == ';' then r else cs1
    | [] => []
  match skipWs cs2 with
  | [] => some e
  | _ => none

def parseAfterReturn (rest : List Char) : Option JSExpr :=
  let rest1 := skipWs rest
  match rest1 with
  | [] => some (.lit .undefined)
  | c :: _ =>
    if c == ';' then finishBody rest1 (.lit .undefined)
    else
      match parsePrimary rest1 with
      | none => none
      | some (e0, r0) =>
        let r := parseMemberChain r0.length e0 r0
        finishBody r.2 r.1

/-- Parse a function body of the modelled fragment: empty (returns
`undefined`) or a single `return <expr>;` statement. -/
def parseBody (body : String) : Option JSExpr :=
  let cs := skipWs body.data
  match cs with
  | [] => some (.lit .undefined)
  | _ =>
    match stripExact "return".data cs with
    | none => none
    | some rest =>
      match rest with
      | c :: _ => if isIdentCont c then none else parseAfterReturn rest
      | [] => some (.lit .undefined)

def assocLookup : List (String × JSValue) → String → Option JSValue
  | [], _ => none
  | (k, v) :: rest, n => if k == n then some v else assocLookup rest n

mutual

/-- JavaScript `ToString` of a property key, as used by `data[key]`.
For an array the elements are joined by commas (`null`/`undefined`
render empty); nested containers use the same rendering one level in. -/
def jsKeyToString : JSValue → String
  | .undefined => "undefined"
  | .null => "null"
  | .bool b => cond b "true" "false"
  | .num n => intToDecString n
  | .str s => s
  | .arr xs => arrayKeyString xs
  | .obj _ => "[object Object]"

def arrayKeyString : List JSValue → String
  | [] => ""
  | x :: xs =>
    let hd :=
      match x with
      | .undefined => ""
      | .null => ""
      | v => jsKeyToString v
    match xs with
    | [] => hd
    | _ :: _ => hd ++ "," ++ arrayKeyString xs

end

/-- A canonical array-index string: `"0"` or digits without a leading zero. -/
def parseArrayIndex (s : String) : Option Nat :=
  match s.data with
  | [] => none
  | [c] => if c.isDigit then some (c.toNat - 48) else none
  | c :: cs =>
    if c.isDigit && c != '0' && cs.all Char.isDigit then
      some (digitsToNat (c :: cs))
    else none

/-- JavaScript property read `data[key]` for the values the app indexes
(the `select` step only reaches this with a non-null object or array):
object fields are looked up by the stringified key, arrays by canonical
index (plus `length`); an absent key yields `undefined`. -/
def jsGetProp (data key : JSValue) : JSValue :=
  let k := jsKeyToString key
  match data with
  | .obj fields => (assocLookup fields k).getD .undefined
  | .arr xs =>
    if k == "length" then .num (xs.length : Int)
    else
      match parseArrayIndex k with
      | some i => (xs.get? i).getD .undefined
      | none => .undefined
  | _ => .undefined

def evalExpr (env : List (String × JSValue)) : JSExpr → JSValue
  | .lit v => v
  | .var n => (assocLookup env n).getD .undefined
  | .member b f => jsGetProp (evalExpr env b) (.str f)

/-- Bind parameters positionally; missing arguments are `undefined`. -/
def bindParams : List String → List JSValue → List (String × JSValue)
  | [], _ => []
  | p :: ps, [] => (p, .undefined) :: bindParams ps []
  | p :: ps, a :: as => (p, a) :: bindParams ps as

/-- Call a function value on an argument list (the JS engine's
compile-and-call, for the modelled body fragment). -/
def callJS (f : JSFunctionVal) (args : List JSValue) : JSValue :=
  match parseBody f.body with
  | some e => evalExpr (bindParams f.params args) e
  | none => .undefined

/- ### Pipeline data model -/

/-- The step kinds of the `Filter.type` string tag. -/
inductive FilterKind where
  | filter : FilterKind
  | select : FilterKind
  | map : FilterKind
  | flatmap : FilterKind
  deriving DecidableEq, Repr

/-- A pipeline step (`Filter` in `script.ts`): identifier, kind tag, and
the step function.  The transient `editor?: AceAjax.Editor` handle is
script-editor widget state: it is stripped on save (`sterilizeFunction`
returns `undefined` for the `editor` key) and never read by the
pipeline, so it is not part of the embedded state. -/
structure Filter where
  id : String
  type : FilterKind
  func : JSFunctionVal
  deriving DecidableEq, Repr

structure Source where
  id : String
  url : String
  deriving DecidableEq, Repr

structure ContentItem where
  id : String
  data : JSValue
  deriving DecidableEq, Repr

/-- The observable side effects of a UI handler, in the order they
occur: `processed` for a `this.process()` call (pipeline recomputation),
`saved` for a `this.save()` call (persistence).  DOM-only work
(`updateDisplay`, option-list edits) is transient widget state and not
tracked. -/
inductive Effect where
  | processed : Effect
  | saved : Effect
  deriving DecidableEq, Repr

/- ### JS array-access helpers -/

/-- JS `Array.prototype.at(i)`: non-negative indices read from the front,
negative indices from the end; out of range gives `undefined` (`none`). -/
def jsAt {α : Type} (l : List α) (i : Int) : Option α :=
  if 0 ≤ i then l.get? i.toNat
  else if 0 ≤ (l.length : Int) + i then l.get? ((l.length : Int) + i).toNat
  else none

/-- Bracket read `l[i]`: `undefined` (`none`) for negative or
out-of-range indices. -/
def bracketGet {α : Type} (l : List α) (i : Int) : Option α :=
  if 0 ≤ i then l.get? i.toNat else none

def listModify {α : Type} : List α → Nat → (α → α) → List α
  | [], _, _ => []
  | a :: t, 0, f => f a :: t
  | a :: t, n + 1, f => a :: listModify t n f

/-- Bracket assignment `l[i] = v` for the index shapes the app reaches:
in-range indices overwrite, the index `length` appends.  (For an index
beyond `length` JavaScript would extend the array with holes, and a
negative index becomes a non-element property; neither state is reached
by the app, and both leave the existing elements unchanged, as here.) -/
def bracketSet {α : Type} (l : List α) (i : Int) (v : α) : List α :=
  if 0 ≤ i then
    if i.toNat < l.length then listModify l i.toNat (fun _ => v)
    else if i.toNat = l.length then l ++ [v]
    else l
  else l

/-- In-place mutation of the element at `l[i]` (e.g. `l[i].type = v`);
no element changes when the index is not an element index. -/
def bracketModify {α : Type} (l : List α) (i : Int) (f : α → α) : List α :=
  if 0 ≤ i then listModify l i.toNat f else l

/-- JS `splice(i, 1)`: remove the element at index `i` (no change when out
of range). -/
def spliceRemove {α : Type} (l : List α) (i : Nat) : List α :=
  l.take i ++ l.drop (i + 1)

/- ### JS array iteration methods, with the callback receiving
`(element, index, array)` as the engine passes them. -/

/-- JS `xs.filter(f)`: keep the elements on which `f` returns a truthy value. -/
def jsFilterList (f : JSFunctionVal) (xs : List JSValue) : List JSValue :=
  (xs.enum.filter (fun p => truthy (callJS f [p.2, .num (p.1 : Int), .arr xs]))).map
    (fun p => p.2)

/-- JS `xs.map(f)`. -/
def jsMapList (f : JSFunctionVal) (xs : List JSValue) : List JSValue :=
  xs.enum.map (fun p => callJS f [p.2, .num (p.1 : Int), .arr xs])

/-- Flatten exactly one level of arrays, as `flatMap` does with its
callback results. -/
def flattenOne : List JSValue → List JSValue
  | [] => []
  | .arr ys :: rest => ys ++ flattenOne rest
  | v :: rest => v :: flattenOne rest

/-- JS `xs.flatMap(f)`: map, then flatten one level. -/
def jsFlatMapList (f : JSFunctionVal) (xs : List JSValue) : List JSValue :=
  flattenOne (jsMapList f xs)

/- ### Persistence shapes (§6): the record stored under the `"jfs"` key.
`JSON.stringify(state, sterilizeFunction)` visits every key: on a step
it replaces the function under the `func` key by its body text
(`getFunctionContent`) and drops the `editor` key; `JSON.parse(text,
desterilizeFunction)` turns every string-valued `func` key back into a
function.  Structurally each step therefore round-trips through
`PersistedFilter`. -/

structure PersistedFilter where
  id : String
  type : FilterKind
  func : String
  deriving DecidableEq, Repr

/-- The replacer `sterilizeFunction` as it acts on one step during `JSON.stringify`. -/
def sterilizeFilter (f : Filter) : PersistedFilter :=
  ⟨f.id, f.type, getFunctionContent f.func⟩

/-- The reviver `desterilizeFunction` as it acts on one stored step during `JSON.parse`. -/
def desterilizeFilter (p : PersistedFilter) : Filter :=
  ⟨p.id, p.type, desterilizeFuncValue p.func⟩

namespace Multi

/- ### The multi-source variant of `script.ts` (the first half of the file). -/

/-- The app's mutable state: `sources`, loaded `content`,
`filtersGroups`, `activeFilterGroup`, plus the result viewer's currently
displayed value (`this.editor`'s contents, written only by
`this.editor.set(data)` at the end of a completed `process()` run). -/
structure AppState where
  sources : List Source
  content : List ContentItem
  filtersGroups : List (List Filter)
  activeFilterGroup : Int
  displayed : JSValue
  deriving DecidableEq, Repr

/-- The persisted record (`sources`, `filters`, `active`). -/
structure PersistedState where
  sources : List Source
  filters : List (List PersistedFilter)
  active : Int
  deriving DecidableEq, Repr

/-- The method `save()`: serialize sources, filter groups (each step through
`sterilizeFunction`) and the active index. -/
def save (s : AppState) : PersistedState :=
  ⟨s.sources, s.filtersGroups.map (fun g => g.map sterilizeFilter), s.activeFilterGroup⟩

/-- The state-reconstruction part of `load()`: parse the stored record
with `desterilizeFunction` and install `sources`, `filtersGroups` and
`activeFilterGroup` (returned here as a triple; `load` then re-fetches
every source's content asynchronously, which is the source loader
collaborator's part). -/
def loadState (p : PersistedState) : List Source × List (List Filter) × Int :=
  (p.sources, p.filters.map (fun g => g.map desterilizeFilter), p.active)

def contentValues (s : AppState) : List JSValue :=
  s.content.map (fun c => c.data)

/-- One iteration of the `switch (filter.type)` in `process()`:
`some d` continues the loop with `data = d` (a `break`), `none` is the
`return` that aborts the whole run.  `filter`/`map`/`flatmap` first test
`Array.isArray(data)` and `break` (keeping `data`) when it fails;
`select` tests `!data || typeof data !== "object"` and returns,
otherwise rebinds `data := data[filter.func()]`. -/
def stepOnce (filter : Filter) (data : JSValue) : Option JSValue :=
  match filter.type with
  | .filter =>
    some (match data with
      | .arr xs => .arr (jsFilterList filter.func xs)
      | d => d)
  | .flatmap =>
    some (match data with
      | .arr xs => .arr (jsFlatMapList filter.func xs)
      | d => d)
  | .select =>
    if truthy data && jsTypeof data == "object" then
      some (jsGetProp data (callJS filter.func []))
    else none
  | .map =>
    some (match data with
      | .arr xs => .arr (jsMapList filter.func xs)
      | d => d)

/-- The `for (const filter of filters)` loop of `process()`: fold the
steps left to right; an aborting step (`none`) aborts the whole run. -/
def runSteps : JSValue → List Filter → Option JSValue
  | data, [] => some data
  | data, f :: rest =>
    match stepOnce f data with
    | none => none
    | some d => runSteps d rest

/-- The method `process()`: seed `data` with the array of all loaded content
values, fold the active group's steps (an absent group skips the loop),
and deliver the final value to the result viewer.  `some v` means
`this.editor.set(v)` was called with `v`; `none` means the run returned
early and `set` was never called. -/
def process (s : AppState) : Option JSValue :=
  let data : JSValue := .arr (contentValues s)
  match jsAt s.filtersGroups s.activeFilterGroup with
  | none => some data
  | some filters => runSteps data filters

/-- A `this.process()` call as it affects the state: the displayed value
is replaced when the run completes and untouched when it aborts. -/
def runProcess (s : AppState) : AppState :=
  match process s with
  | none => s
  | some v => { s with displayed := v }

/- ### UI handlers (Group & Step Mutators).  Each handler returns the
new state together with the ordered list of `processed` / `saved`
effects it performed.  Fresh UUIDs and text coming from the DOM or the
script editor are passed in as parameters. -/

/-- The default step pushed by the add-step button:
`{ id: randomUUID(), type: "select", func: new Function(["e","idx","list"], "return e;") }`. -/
def defaultFilter (freshId : String) : Filter :=
  ⟨freshId, .select, ⟨["e", "idx", "list"], "return e;"⟩⟩

/-- Handler `bntFiltersAdd` (sic): ensure the active group exists, push the default
step, then `updateDisplay(); process(); save();`. -/
def bntFiltersAdd (s : AppState) (freshId : String) : AppState × List Effect :=
  let gs0 :=
    match bracketGet s.filtersGroups s.activeFilterGroup with
    | some _ => s.filtersGroups
    | none => bracketSet s.filtersGroups s.activeFilterGroup []
  let gs1 := bracketModify gs0 s.activeFilterGroup (fun g => g ++ [defaultFilter freshId])
  (runProcess { s with filtersGroups := gs1 }, [.processed, .saved])

/-- Handler `btnFiltersReset`: if the active group exists, empty it, then
`updateDisplay(); save();` — note: no `process()` call. -/
def btnFiltersReset (s : AppState) : AppState × List Effect :=
  match bracketGet s.filtersGroups s.activeFilterGroup with
  | some _ =>
    ({ s with filtersGroups := bracketSet s.filtersGroups s.activeFilterGroup [] }, [.saved])
  | none => (s, [])

/-- The per-step remove button (`btn` click handler inside
`updateDisplay`): drop the step with the given id from the active group,
then `updateDisplay(); process();` — note: no `save()` call. -/
def removeStepClick (s : AppState) (filterId : String) : AppState × List Effect :=
  match bracketGet s.filtersGroups s.activeFilterGroup with
  | none => (s, [])
  | some g =>
    let gs := bracketSet s.filtersGroups s.activeFilterGroup
      (g.filter (fun e => e.id ≠ filterId))
    (runProcess { s with filtersGroups := gs }, [.processed])

/-- The per-step kind selector (`select` change handler inside
`updateDisplay`): look up the step by id in the active group, assign its
`type`, then `process();` — note: no `save()` call.  (The handler's
`if (!value) return` guard never fires for the four offered options.) -/
def handleKindChange (s : AppState) (filterId : String) (value : FilterKind) :
    AppState × List Effect :=
  match jsAt s.filtersGroups s.activeFilterGroup with
  | none => (s, [])
  | some g =>
    match g.findIdx? (fun e => e.id == filterId) with
    | none => (s, [])
    | some idx =>
      let gs := bracketModify s.filtersGroups s.activeFilterGroup
        (fun grp => listModify grp idx (fun st => { st with type := value }))
      (runProcess { s with filtersGroups := gs }, [.processed])

/-- Handler `handleFilterChange` (debounced script-editor change): recompile the
step at `index` in the active group from the editor's current text with
`new Function(["e","idx","list"], value)`, then `process(); save();`. -/
def handleFilterChange (s : AppState) (index : Int) (editorText : String) :
    AppState × List Effect :=
  match (jsAt s.filtersGroups s.activeFilterGroup).bind (fun g => jsAt g index) with
  | none => (s, [])
  | some _ =>
    let gs := bracketModify s.filtersGroups s.activeFilterGroup
      (fun g => bracketModify g index (fun st => { st with func := desterilizeFuncValue editorText }))
    (runProcess { s with filtersGroups := gs }, [.processed, .saved])

/-- Handler `btnFilterGroupAdd`: push an empty group, make it active, then
`updateDisplay(); process(); save();`. -/
def btnFilterGroupAdd (s : AppState) : AppState × List Effect :=
  let gs := s.filtersGroups ++ [[]]
  let s1 := { s with filtersGroups := gs, activeFilterGroup := (gs.length : Int) - 1 }
  (runProcess s1, [.processed, .saved])

/-- Handler `btnFitlerGroupDel` (sic): the group-deletion button's handler body
is only `try { this.save(); } catch ...` — it performs no state change. -/
def btnFitlerGroupDel (s : AppState) : AppState × List Effect :=
  (s, [.saved])

/-- Handler `selectFilterGroupChange`: parse the selected option's value and
install it as the active group index with no range check, then
`updateDisplay(); process(); save();`.  The option values are the
decimal indices, so the parsed integer is taken as a parameter. -/
def selectFilterGroupChange (s : AppState) (v : Int) : AppState × List Effect :=
  (runProcess { s with activeFilterGroup := v }, [.processed, .saved])

/-- The add-source dialog's fetch resolution (`fetch(source).then(...)`
in the submit handler): push the content item and `process(); save();`.
The push is unconditional — nothing re-checks that the source with
`contentId` still exists when the fetch resolves. -/
def addSourceResolution (s : AppState) (contentId : String) (item : JSValue) :
    AppState × List Effect :=
  (runProcess { s with content := s.content ++ [⟨contentId, item⟩] }, [.processed, .saved])

/-- The edit-source dialog's fetch resolution: find the content item by
id, update its data and `process(); save();`; return silently when no
content item with that id exists. -/
def editSourceResolution (s : AppState) (id : String) (item : JSValue) :
    AppState × List Effect :=
  match s.content.findIdx? (fun e => e.id == id) with
  | none => (s, [])
  | some idx =>
    (runProcess { s with content := listModify s.content idx (fun c => { c with data := item }) },
      [.processed, .saved])

/-- The per-source remove button (in `createSourcesList`): find the
source's index by id, `splice` the source at that index, `splice` the
content *at that same index*, then `process(); save();`. -/
def removeSourceClick (s : AppState) (id : String) : AppState × List Effect :=
  match s.sources.findIdx? (fun e => e.id == id) with
  | none => (s, [])
  | some idx =>
    let s1 := { s with sources := spliceRemove s.sources idx, content := spliceRemove s.content idx }
    (runProcess s1, [.processed, .saved])

end Multi

namespace Single

/- ### The single-source variant of `script.ts` (the second half of the
file): one optional `content` value instead of a content list, and a
step-kind switch with cases `filter`, `select`, `map` only. -/

/-- One iteration of this variant's `switch`: as in the multi-source
variant but with no `flatmap` case, so a step tagged `flatmap` falls to
`default: break` and is always a no-op. -/
def stepOnce (filter : Filter) (data : JSValue) : Option JSValue :=
  match filter.type with
  | .filter =>
    some (match data with
      | .arr xs => .arr (jsFilterList filter.func xs)
      | d => d)
  | .select =>
    if truthy data && jsTypeof data == "object" then
      some (jsGetProp data (callJS filter.func []))
    else none
  | .map =>
    some (match data with
      | .arr xs => .arr (jsMapList filter.func xs)
      | d => d)
  | .flatmap => some data

def runSteps : JSValue → List Filter → Option JSValue
  | data, [] => some data
  | data, f :: rest =>
    match stepOnce f data with
    | none => none
    | some d => runSteps d rest

/-- This variant's `process()`: `let data = this.content; if (!data)
return;` — the run aborts up front whenever the loaded content value is
falsy (absent content is `undefined`, but `null`, `false`, `0` and `""`
are equally falsy) — then folds the active group's steps and calls
`this.editor.set(data)`.  `some v` means `set(v)` was called, `none`
that it was not. -/
def process (content : JSValue) (filtersGroups : List (List Filter))
    (activeFilterGroup : Int) : Option JSValue :=
  if truthy content then
    match jsAt filtersGroups activeFilterGroup with
    | none => some content
    | some filters => runSteps content filters
  else none

end Single

/- ### Concrete sample steps and states used by the witnesses and
counterexamples below. -/

def stdParams : List String := ["e", "idx", "list"]

/-- A `select` step whose accessor returns the key `"a"`. -/
def sampleSelectA : Filter := ⟨"st-sel-a", .select, ⟨stdParams, "return 'a';"⟩⟩

/-- A `select` step whose accessor returns the key `"b"`. -/
def sampleSelectB : Filter := ⟨"st-sel-b", .select, ⟨stdParams, "return 'b';"⟩⟩

/-- A `select` step whose accessor returns the index `0`. -/
def sampleSelect0 : Filter := ⟨"st-sel-0", .select, ⟨stdParams, "return 0;"⟩⟩

/-- A `map` step projecting the `x` field. -/
def sampleMapX : Filter := ⟨"st-map-x", .map, ⟨stdParams, "return e.x;"⟩⟩

/-- A `filter` step with the identity body (keeps truthy elements). -/
def sampleFilterId : Filter := ⟨"st-fil-id", .filter, ⟨stdParams, "return e;"⟩⟩

namespace Multi

/-- A state with one loaded content value and one active one-step group. -/
def stC1 : AppState := ⟨[], [⟨"c1", .obj [("x", .num 7)]⟩], [[sampleMapX]], 0, .null⟩

/-- The round-trip claim's step: `{kind: "map", body: "return e.x;"}`. -/
def mapStepC2 : Filter := ⟨"step-1", .map, ⟨stdParams, "return e.x;"⟩⟩

/-- The round-trip claim's state: groups `[[mapStepC2]]`, active index 0. -/
def stC2 : AppState := ⟨[], [], [[mapStepC2]], 0, .null⟩

/-- A state whose active group holds one step (so that resetting it is a
genuine state mutation). -/
def stC3 : AppState := ⟨[], [], [[defaultFilter "f1"]], 0, .null⟩

/-- A state with one group, active index 0, and a currently displayed
result `99`. -/
def stC4 : AppState := ⟨[], [], [[defaultFilter "f1"]], 0, .num 99⟩

/-- A state with no sources at all (so any fetch resolution arrives for
a removed source). -/
def stC5 : AppState := ⟨[], [], [], 0, .null⟩

/-- Two sources whose content items resolved in the opposite order. -/
def stC6 : AppState :=
  ⟨[⟨"A", "urlA"⟩, ⟨"B", "urlB"⟩], [⟨"B", .num 2⟩, ⟨"A", .num 1⟩], [], 0, .null⟩

/-- Content `{a: 1}` with an active group `[select 0, select "b",
select "a"]`: the first select extracts the object from the seeded
array, the second hits an absent key, the third then aborts the run. -/
def stC8 : AppState :=
  ⟨[], [⟨"c8", .obj [("a", .num 1)]⟩], [[sampleSelect0, sampleSelectB, sampleSelectA]], 0, .num 42⟩

end Multi

/-! ## Theorems -/

/-- Helper: the `select` guard `!data || typeof data !== "object"` fires
exactly when `data` is `null` or not of object type. -/
theorem select_guard_false (d : JSValue) (h : d = .null ∨ jsTypeof d ≠ "object") :
    (truthy d && (jsTypeof d == "object")) = false := by
  rcases h with rfl | h
  · rfl
  · cases d <;> simp_all [jsTypeof, truthy]

/-- Helper: a `filter`, `map` or `flatmap` step leaves non-array data
unchanged and does not abort. -/
theorem stepOnce_skip (f : Filter) (d : JSValue)
    (hk : f.type = .filter ∨ f.type = .map ∨ f.type = .flatmap)
    (hd : isArrayVal d = false) : Multi.stepOnce f d = some d := by
  rcases hk with hk | hk | hk <;>
    (simp only [Multi.stepOnce, hk]; cases d <;> simp_all [isArrayVal])

/-- C1.  For every content snapshot and active group, `process` folds
the group's steps left-to-right over data seeded from the loaded
content (`runSteps` composes sequentially over concatenation), and on a
precondition failure the behaviour is asymmetric by kind: a `filter`,
`map` or `flatmap` step reached while data is not an array leaves data
unchanged and the fold continues with the next step, while a `select`
step reached while data is `null` or not of object type makes the whole
run return `none` — the early `return` on which `this.editor.set` (the
result viewer) is never called. -/
theorem c1_process_fold_asymmetry :
    (∀ (s : Multi.AppState) (filters : List Filter),
      jsAt s.filtersGroups s.activeFilterGroup = some filters →
      Multi.process s = Multi.runSteps (.arr (Multi.contentValues s)) filters) ∧
    (∀ (d : JSValue) (fs gs : List Filter),
      Multi.runSteps d (fs ++ gs) =
        (Multi.runSteps d fs).bind (fun d2 => Multi.runSteps d2 gs)) ∧
    (∀ (f : Filter) (d : JSValue) (rest : List Filter),
      (f.type = .filter ∨ f.type = .map ∨ f.type = .flatmap) →
      isArrayVal d = false →
      Multi.runSteps d (f :: rest) = Multi.runSteps d rest) ∧
    (∀ (f : Filter) (d : JSValue) (rest : List Filter),
      f.type = .select → (d = .null ∨ jsTypeof d ≠ "object") →
      Multi.runSteps d (f :: rest) = none) := by
  refine ⟨?_, ?_, ?_, ?_⟩
  · intro s filters h
    simp [Multi.process, h]
  · intro d fs gs
    induction fs generalizing d with
    | nil => simp [Multi.runSteps]
    | cons f fs ih =>
      simp only [List.cons_append, Multi.runSteps]
      cases Multi.stepOnce f d with
      | none => rfl
      | some d2 => exact ih d2
  · intro f d rest hk hd
    simp [Multi.runSteps, stepOnce_skip f d hk hd]
  · intro f d rest hk hd
    have hguard : Multi.stepOnce f d = none := by
      simp [Multi.stepOnce, hk, select_guard_false d hd]
    simp [Multi.runSteps, hguard]

/-- Witness for C1 at concrete inputs: the fold over `stC1`'s seeded
content, a `filter` step skipping over the non-array `3`, and a `select`
step aborting on `null`. -/
theorem c1_witness :
    Multi.process Multi.stC1 =
      Multi.runSteps (.arr (Multi.contentValues Multi.stC1)) [sampleMapX] ∧
    Multi.runSteps (.num 3) [sampleFilterId] = Multi.runSteps (.num 3) [] ∧
    Multi.runSteps .null [sampleSelectA] = none :=
  ⟨c1_process_fold_asymmetry.1 Multi.stC1 [sampleMapX] (by decide),
   c1_process_fold_asymmetry.2.2.1 sampleFilterId (.num 3) [] (Or.inl rfl) (by decide),
   c1_process_fold_asymmetry.2.2.2 sampleSelectA .null [] rfl (Or.inl rfl)⟩

/-- C2.  Persist-then-load round-trip: for the state whose groups are
`[[{kind: "map", body: "return e.x;"}]]` with active index 0, `save`
followed by the load-time reconstruction yields the same groups and
active index, and the reconstructed step's transform, invoked on the
object `{x: 5}`, returns `5`. -/
theorem c2_save_load_roundtrip :
    Multi.loadState (Multi.save Multi.stC2) =
      (Multi.stC2.sources, Multi.stC2.filtersGroups, Multi.stC2.activeFilterGroup) ∧
    Multi.stC2.filtersGroups = [[Multi.mapStepC2]] ∧
    Multi.stC2.activeFilterGroup = 0 ∧
    callJS Multi.mapStepC2.func [.obj [("x", .num 5)]] = .num 5 := by
  decide

/-- C9.  The group-deletion handler (`btnFitlerGroupDel`) leaves the
whole state — groups, active index, sources, content, displayed result —
unchanged; its only effect is a persistence save of that unchanged
state. -/
theorem c9_groupDel_noop :
    ∀ s : Multi.AppState,
      (Multi.btnFitlerGroupDel s).1 = s ∧
      (Multi.btnFitlerGroupDel s).2 = [Effect.saved] ∧
      Multi.save (Multi.btnFitlerGroupDel s).1 = Multi.save s :=
  fun s => ⟨rfl, rfl, rfl⟩

/-- C10.  In the single-source variant, for every active group
(including the empty group), a falsy loaded content value — which
includes the valid JSON documents `null`, `false`, `0` and `""`, not
only absent content — makes `process` return before executing any step
and before calling the result viewer's `set` (result `none`), so the
empty-group identity law fails for those content values. -/
theorem c10_falsy_content_halts :
    (∀ (c : JSValue) (groups : List (List Filter)) (active : Int),
      truthy c = false → Single.process c groups active = none) ∧
    truthy .null = false ∧ truthy (.bool false) = false ∧
    truthy (.num 0) = false ∧ truthy (.str "") = false ∧
    (∀ (c : JSValue) (groups : List (List Filter)) (active : Int),
      truthy c = false → Single.process c groups active ≠ some c) := by
  refine ⟨?_, rfl, rfl, by decide, by decide, ?_⟩
  · intro c groups active h
    simp [Single.process, h]
  · intro c groups active h
    simp [Single.process, h]

/-- Witness for C10 at the concrete input `null` with one empty active
group. -/
theorem c10_witness :
    Single.process .null [[]] 0 = none ∧
    Single.process .null [[]] 0 ≠ some .null :=
  ⟨c10_falsy_content_halts.1 .null [[]] 0 (by decide),
   c10_falsy_content_halts.2.2.2.2.2 .null [[]] 0 (by decide)⟩

/-- Helper: a `process()` call only ever rewrites the displayed result;
sources, content, groups and the active index are untouched. -/
theorem runProcess_frame (t : Multi.AppState) :
    (Multi.runProcess t).sources = t.sources ∧
    (Multi.runProcess t).content = t.content ∧
    (Multi.runProcess t).filtersGroups = t.filtersGroups ∧
    (Multi.runProcess t).activeFilterGroup = t.activeFilterGroup := by
  unfold Multi.runProcess
  cases Multi.process t <;> exact ⟨rfl, rfl, rfl, rfl⟩

/-- C4 counterexample.  On `stC4` (one group, active index 0, displayed
result `99`), selecting the out-of-range group index `5` does not leave
the active index or the displayed result unchanged, and no range check
or IndexError exists in the handler. -/
theorem c4_counterexample :
    ((Multi.stC4.filtersGroups.length : Int) ≤ 5) ∧
    (Multi.selectFilterGroupChange Multi.stC4 5).1.activeFilterGroup ≠
      Multi.stC4.activeFilterGroup ∧
    (Multi.selectFilterGroupChange Multi.stC4 5).1.displayed ≠ Multi.stC4.displayed := by
  decide

/-- C4 as amended.  `selectFilterGroupChange` installs the parsed index
unconditionally (no range check, no IndexError): the active index
becomes `v`, group contents, sources and content are untouched, the
handler recomputes and saves, and for an out-of-range `v` the displayed
result becomes the unfiltered seeded content array. -/
theorem c4_setActiveGroup_behavior :
    ∀ (s : Multi.AppState) (v : Int),
      (Multi.selectFilterGroupChange s v).1.activeFilterGroup = v ∧
      (Multi.selectFilterGroupChange s v).1.filtersGroups = s.filtersGroups ∧
      (Multi.selectFilterGroupChange s v).1.sources = s.sources ∧
      (Multi.selectFilterGroupChange s v).1.content = s.content ∧
      (Multi.selectFilterGroupChange s v).2 = [Effect.processed, Effect.saved] ∧
      (jsAt s.filtersGroups v = none →
        (Multi.selectFilterGroupChange s v).1.displayed = .arr (Multi.contentValues s)) := by
  intro s v
  refine ⟨(runProcess_frame _).2.2.2, (runProcess_frame _).2.2.1,
    (runProcess_frame _).1, (runProcess_frame _).2.1, rfl, ?_⟩
  intro h
  have hp : Multi.process { s with activeFilterGroup := v } =
      some (.arr (Multi.contentValues s)) := by
    simp [Multi.process, Multi.contentValues, h]
  show (Multi.runProcess { s with activeFilterGroup := v }).displayed = _
  simp [Multi.runProcess, hp]

/-- Witness for C4's amended statement at the concrete out-of-range
index `5` on `stC4`. -/
theorem c4_witness :
    (Multi.selectFilterGroupChange Multi.stC4 5).1.activeFilterGroup = 5 ∧
    (Multi.selectFilterGroupChange Multi.stC4 5).1.displayed =
      .arr (Multi.contentValues Multi.stC4) :=
  ⟨(c4_setActiveGroup_behavior Multi.stC4 5).1,
   (c4_setActiveGroup_behavior Multi.stC4 5).2.2.2.2.2 (by decide)⟩

/-- C5 counterexample.  On `stC5` there is no source at all, yet the
add-source fetch resolution for id `"a"` changes the content sequence:
the update is not dropped, an orphan content item is inserted. -/
theorem c5_counterexample :
    Multi.stC5.sources = [] ∧
    (Multi.addSourceResolution Multi.stC5 "a" (.num 1)).1.content ≠ Multi.stC5.content := by
  decide

/-- C5 as amended.  The add-source fetch resolution appends its content
item unconditionally (no check that the source still exists), then
recomputes and saves; the edit-source fetch resolution silently drops
the update when no content item with that id exists. -/
theorem c5_setContent_behavior :
    ∀ (s : Multi.AppState) (id : String) (item : JSValue),
      (Multi.addSourceResolution s id item).1.content = s.content ++ [⟨id, item⟩] ∧
      (Multi.addSourceResolution s id item).2 = [Effect.processed, Effect.saved] ∧
      (s.content.findIdx? (fun e => e.id == id) = none →
        Multi.editSourceResolution s id item = (s, [])) := by
  intro s id item
  refine ⟨(runProcess_frame _).2.1, rfl, ?_⟩
  intro h
  simp [Multi.editSourceResolution, h]

/-- Witness for C5's amended statement: the orphan append on `stC5` and
the silent drop of an edit resolution with no matching content item. -/
theorem c5_witness :
    (Multi.addSourceResolution Multi.stC5 "a" (.num 1)).1.content = [⟨"a", .num 1⟩] ∧
    Multi.editSourceResolution Multi.stC5 "a" (.num 1) = (Multi.stC5, []) :=
  ⟨(c5_setContent_behavior Multi.stC5 "a" (.num 1)).1,
   (c5_setContent_behavior Multi.stC5 "a" (.num 1)).2.2 (by decide)⟩

/-- C6.  Evaluating the remove-source handler at the failing input
`stC6` (sources `[A, B]`, content resolved in the opposite order
`[B, A]`): removing source `"A"` splices the content at the *source's*
index 0 and thereby deletes B's content item while A's content item
survives as an orphan — afterwards the content ids are no longer a
subset of the source ids. -/
theorem c6_removeSource_misaligned :
    (Multi.removeSourceClick Multi.stC6 "A").1.sources = [⟨"B", "urlB"⟩] ∧
    (Multi.removeSourceClick Multi.stC6 "A").1.content = [⟨"A", .num 1⟩] ∧
    ((Multi.removeSourceClick Multi.stC6 "A").1.content.all (fun c =>
      (Multi.removeSourceClick Multi.stC6 "A").1.sources.any
        (fun src => src.id == c.id))) = false := by
  decide

/-- C7 counterexample.  The decoded callable's parameters are named
`e`, `idx`, `list` — not `element`, `index`, `list` as claimed — and the
difference is observable: on the body `return element;` the decoded
function applied to `7` yields `undefined` (the body's identifier is not
a parameter name), while a function with the spec's parameter names
would return `7`. -/
theorem c7_counterexample :
    desterilizeFuncValue "return element;" ≠ specDecode "return element;" ∧
    (desterilizeFuncValue "return element;").params ≠ ["element", "index", "list"] ∧
    callJS (desterilizeFuncValue "return element;") [.num 7] = .undefined ∧
    callJS (specDecode "return element;") [.num 7] = .num 7 := by
  decide

/-- C7 as amended.  `decode(bodyText)` constructs a callable accepting
exactly three positional parameters named `e`, `idx`, `list`, in that
fixed order, whose body is `bodyText`. -/
theorem c7_decode_params :
    ∀ body : String,
      (desterilizeFuncValue body).params = ["e", "idx", "list"] ∧
      (desterilizeFuncValue body).body = body :=
  fun _ => ⟨rfl, rfl⟩

/-- Helper: once data is `undefined`, any run of steps none of which is
a `select` skips every step and completes with `undefined`. -/
theorem runSteps_undef_of_no_select :
    ∀ (rest : List Filter), (∀ g ∈ rest, g.type ≠ .select) →
      Multi.runSteps .undefined rest = some .undefined := by
  intro rest h
  induction rest with
  | nil => rfl
  | cons f rest ih =>
    have hf : f.type ≠ .select := h f (List.mem_cons_self f rest)
    have hrest : ∀ g ∈ rest, g.type ≠ FilterKind.select :=
      fun g hg => h g (List.mem_cons_of_mem f hg)
    have hstep : Multi.stepOnce f .undefined = some .undefined := by
      cases hft : f.type <;> simp_all [Multi.stepOnce]
    simp [Multi.runSteps, hstep, ih hrest]

/-- C8 counterexample.  A `select` with an absent key on `{a: 1}` does
yield `undefined` — but when a further `select` step remains, the run
aborts at that step and the `undefined` never reaches the result
viewer: on `stC8` the whole run returns `none` and the previously
displayed value survives unchanged, contradicting "regardless of any
steps remaining". -/
theorem c8_counterexample :
    Multi.runSteps (.obj [("a", .num 1)]) [sampleSelectB] = some .undefined ∧
    Multi.runSteps (.obj [("a", .num 1)]) [sampleSelectB, sampleSelectA] = none ∧
    Multi.process Multi.stC8 = none ∧
    Multi.runProcess Multi.stC8 = Multi.stC8 := by
  decide

/-- C8 as amended.  A `select` step whose accessor returns a key absent
from a non-array object binds data to `undefined`, and that `undefined`
is the run's delivered result provided no later `select` step follows
(the other kinds all skip over a non-array); a later `select` step would
abort the run and lose it. -/
theorem c8_select_missing_key :
    ∀ (fields : List (String × JSValue)) (f : Filter) (rest : List Filter),
      f.type = .select →
      assocLookup fields (jsKeyToString (callJS f.func [])) = none →
      (∀ g ∈ rest, g.type ≠ .select) →
      Multi.runSteps (.obj fields) (f :: rest) = some .undefined := by
  intro fields f rest hk hmiss hrest
  have hstep : Multi.stepOnce f (.obj fields) = some .undefined := by
    simp [Multi.stepOnce, hk, jsGetProp, hmiss, truthy, jsTypeof]
  simp [Multi.runSteps, hstep, runSteps_undef_of_no_select rest hrest]

/-- Witness for C8's amended statement: select of the absent key `"b"`
on `{a: 1}` followed by a `map` step delivers `undefined`. -/
theorem c8_witness :
    Multi.runSteps (.obj [("a", .num 1)]) [sampleSelectB, sampleMapX] = some .undefined :=
  c8_select_missing_key [("a", .num 1)] sampleSelectB [sampleMapX] rfl (by decide) (by decide)

/-- C3 counterexample.  On `stC3`, resetting the active group's steps is
a genuine state mutation (the group goes from one step to none), yet its
effect trace is only a save — no pipeline recomputation precedes it. -/
theorem c3_counterexample :
    (Multi.btnFiltersReset Multi.stC3).1.filtersGroups ≠ Multi.stC3.filtersGroups ∧
    (Multi.btnFiltersReset Multi.stC3).2 = [Effect.saved] := by
  decide

/-- C3 as amended.  Adding a step, adding a group, switching the active
group and recompiling a step's source each trigger recomputation
followed by save; resetting the active group's steps triggers only a
save (no recomputation); removing a step and changing a step's kind
trigger only a recomputation (no save). -/
theorem c3_effect_traces :
    ∀ (s : Multi.AppState) (g : List Filter) (freshId filterId editorText : String)
      (k : FilterKind) (v i : Int) (j : Nat) (f2 : Filter),
      bracketGet s.filtersGroups s.activeFilterGroup = some g →
      jsAt s.filtersGroups s.activeFilterGroup = some g →
      g.findIdx? (fun e => e.id == filterId) = some j →
      jsAt g i = some f2 →
      (Multi.bntFiltersAdd s freshId).2 = [Effect.processed, Effect.saved] ∧
      (Multi.btnFilterGroupAdd s).2 = [Effect.processed, Effect.saved] ∧
      (Multi.selectFilterGroupChange s v).2 = [Effect.processed, Effect.saved] ∧
      (Multi.handleFilterChange s i editorText).2 = [Effect.processed, Effect.saved] ∧
      (Multi.btnFiltersReset s).2 = [Effect.saved] ∧
      (Multi.removeStepClick s filterId).2 = [Effect.processed] ∧
      (Multi.handleKindChange s filterId k).2 = [Effect.processed] := by
  intro s g freshId filterId editorText k v i j f2 hbr hat hfind hati
  refine ⟨rfl, rfl, rfl, ?_, ?_, ?_, ?_⟩
  · simp [Multi.handleFilterChange, hat, hati]
  · simp [Multi.btnFiltersReset, hbr]
  · simp [Multi.removeStepClick, hbr]
  · simp [Multi.handleKindChange, hat, hfind]

/-- Witness for C3's amended statement on the concrete state `stC3`
(one group holding the step `"f1"`, active index 0). -/
theorem c3_witness :
    (Multi.bntFiltersAdd Multi.stC3 "f9").2 = [Effect.processed, Effect.saved] ∧
    (Multi.btnFilterGroupAdd Multi.stC3).2 = [Effect.processed, Effect.saved] ∧
    (Multi.selectFilterGroupChange Multi.stC3 1).2 = [Effect.processed, Effect.saved] ∧
    (Multi.handleFilterChange Multi.stC3 0 "return e;").2 = [Effect.processed, Effect.saved] ∧
    (Multi.btnFiltersReset Multi.stC3).2 = [Effect.saved] ∧
    (Multi.removeStepClick Multi.stC3 "f1").2 = [Effect.processed] ∧
    (Multi.handleKindChange Multi.stC3 "f1" .map).2 = [Effect.processed] :=
  c3_effect_traces Multi.stC3 [Multi.defaultFilter "f1"] "f9" "f1" "return e;" .map 1 0 0
    (Multi.defaultFilter "f1") (by decide) (by decide) (by decide) (by decide)

/-- Direct evaluation of a whole run (the spec's select scenario):
content `{a: [1,2,3]}` with the one-step group `[select 'a']` in the
single-source variant produces `[1,2,3]`. -/
theorem select_scenario_eval :
    Single.process (.obj [("a", .arr [.num 1, .num 2, .num 3])]) [[sampleSelectA]] 0 =
      some (.arr [.num 1, .num 2, .num 3]) := by
  decide

end JsonFilter
